import Mathlib

/-!
Verification of the keyboard input decoding pipeline.

Shallow embedding of the terminal keyboard input decoder of this repository
(the `KeyboardProvider` in `src/cli/src/ui/utils/welcomeMessage.ts`, second
document: `handleKeypress`, `completePaste`, `completeDrag`, `handleRawData`)
and of the `EventEmitter` broadcaster (`src/unnamed/part_006`).

Strings are embedded as `List Char`.  Mutable refs and Jotai atoms are merged
into one explicit `DecoderState` record; the two timers (drag completion and
backslash detection) are modelled as explicit state plus timer-fire inputs, so
a run is a list of `Input`s (key units and timer firings).

The helper module `ui/utils/keyParsing.ts` and the keyboard constants module
are not part of the available sources (only their caller is), so those
functions are modelled from the specification's description of the Sequence
Parser; each such definition carries a `Modelled from the spec:` comment.
-/

namespace Kilo

/-- A logical key event / parsed input unit.  Embeds the `ParsedKey` /
`LogicalKeyEvent` record: `name`, `ctrl`, `meta`, `shift`, `paste`,
`sequence` (raw string as a character list). -/
structure Key where
  name : String := ""
  ctrl : Bool := false
  meta : Bool := false
  shift : Bool := false
  paste : Bool := false
  sequence : List Char := []
deriving DecidableEq, Repr

/-- The escape character (`ESC`, `"\x1b"`). -/
def escChar : Char := '\x1b'

/-- Modelled from the spec: the fixed bracketed-paste start marker (named
`PASTE_MODE_PREFIX` in the source); the source's comment documents it as
`ESC[200~`. -/
def PASTE_MODE_START : List Char := [escChar, '[', '2', '0', '0', '~']

/-- Modelled from the spec: the fixed bracketed-paste end marker (named
`PASTE_MODE_SUFFIX` in the source), documented as `ESC[201~`. -/
def PASTE_MODE_END : List Char := [escChar, '[', '2', '0', '1', '~']

/-- Modelled from the spec: the `BACKSLASH` constant (a lone backslash). -/
def BACKSLASH : List Char := ['\\']

/-- Modelled from the spec: `MAX_KITTY_SEQUENCE_LENGTH`, the fixed bound on
the extended-protocol sequence accumulator ("e.g. 256 bytes"). -/
def MAX_KITTY_SEQUENCE_LENGTH : Nat := 256

/-- Modelled from the spec: `createPasteKey(text)` builds the paste event:
empty name, `paste = true`, the text as the raw sequence. -/
def createPasteKey (text : List Char) : Key :=
  { name := "", ctrl := false, meta := false, shift := false, paste := true,
    sequence := text }

/-- Modelled from the spec: `createSpecialKey(name, seq)` builds a plain
(non-paste, unmodified) key event. -/
def createSpecialKey (name : String) (seq : List Char) : Key :=
  { name := name, ctrl := false, meta := false, shift := false, paste := false,
    sequence := seq }

/-- Modelled from the spec: `isFocusEvent(seq)` matches the fixed terminal
focus-report sequences (`ESC[I` focus in, `ESC[O` focus out). -/
def isFocusEvent (s : List Char) : Bool × Bool :=
  (s = [escChar, '[', 'I'], s = [escChar, '[', 'O'])

/-- Modelled from the spec: `isPasteModeBoundary(seq)` matches the two fixed
bracketed-paste markers; "exact prefix match only". -/
def isPasteModeBoundary (s : List Char) : Bool × Bool :=
  (PASTE_MODE_START.isPrefixOf s, PASTE_MODE_END.isPrefixOf s)

/-- Modelled from the spec: the file-drag framing marker that terminals
supporting drag-and-drop put in front, taken here to be the file-URI
scheme. -/
def DRAG_MARK : List Char := ['f', 'i', 'l', 'e', ':', '/', '/']

/-- Modelled from the spec: `isDragStart(seq)` matches the file-drag framing
prefix. -/
def isDragStart (s : List Char) : Bool := DRAG_MARK.isPrefixOf s

/-- Modelled from the spec: `mapAltKeyCharacter(seq)` — an Alt+letter arrives
as an ESC-prefixed single character; this recovers the intended letter. -/
def mapAltKeyCharacter (s : List Char) : Option Char :=
  match s with
  | [e, c] => if e = escChar ∧ c.isAlpha then some c else none
  | _ => none

/-- First pass of paste normalization: left-to-right, non-overlapping global
replacement of CRLF by LF, embedding the regex replace of CRLF. -/
def replaceCRLF : List Char → List Char
  | '\r' :: '\n' :: rest => '\n' :: replaceCRLF rest
  | c :: rest => c :: replaceCRLF rest
  | [] => []

/-- Second pass of paste normalization: global replacement of each remaining
CR by LF. -/
def replaceCR : List Char → List Char
  | '\r' :: rest => '\n' :: replaceCR rest
  | c :: rest => c :: replaceCR rest
  | [] => []

/-- Line-ending normalization applied to a completed paste buffer:
`buffer.replace(/\r\n/g, "\n").replace(/\r/g, "\n")` (from `completePaste`). -/
def normalizePaste (s : List Char) : List Char := replaceCR (replaceCRLF s)

/-- Result record of the extended-protocol parser: the parsed key (or `none`)
and the number of characters consumed from the front of the buffer. -/
structure KittyResult where
  key : Option Key
  consumedLength : Nat
deriving DecidableEq, Repr

/-- Take the longest run of decimal digits from the front of a list. -/
def takeDigits : List Char → List Char × List Char
  | [] => ([], [])
  | c :: t =>
    if c.isDigit then
      let r := takeDigits t
      (c :: r.1, r.2)
    else ([], c :: t)

/-- Decimal value of a digit run. -/
def digitsToNat (ds : List Char) : Nat :=
  ds.foldl (fun n c => n * 10 + (c.toNat - 48)) 0

/-- Key name for an extended-protocol key code. -/
def kittyKeyName (code : Nat) : String :=
  if code = 13 then "return"
  else if code = 27 then "escape"
  else if code = 9 then "tab"
  else String.singleton (Char.ofNat code)

/-- Build the key event for an extended-protocol sequence with the given key
code and modifier value (modifier encodes `1 + (shift=1 | alt=2 | ctrl=4)`). -/
def mkKittyKey (code modifier : Nat) (consumed : List Char) : Key :=
  { name := kittyKeyName code,
    ctrl := (modifier - 1) / 4 % 2 = 1,
    meta := (modifier - 1) / 2 % 2 = 1,
    shift := (modifier - 1) % 2 = 1,
    paste := false,
    sequence := consumed }

/-- Modelled from the spec: `parseKittySequence(buffer)` attempts to parse one
complete extended-protocol escape sequence (`ESC [ code (; modifier)? u`) from
the front of the buffer; returns `key = none` for an incomplete or
unrecognized buffer. -/
def parseKittySequence (buf : List Char) : KittyResult :=
  match buf with
  | e :: br :: rest =>
    if e = escChar ∧ br = '[' then
      let d := takeDigits rest
      if d.1.isEmpty then { key := none, consumedLength := 0 }
      else
        match d.2 with
        | 'u' :: _ =>
          { key := some (mkKittyKey (digitsToNat d.1) 1
              (escChar :: '[' :: d.1 ++ ['u'])),
            consumedLength := 2 + d.1.length + 1 }
        | ';' :: r2 =>
          let m := takeDigits r2
          if m.1.isEmpty then { key := none, consumedLength := 0 }
          else
            match m.2 with
            | 'u' :: _ =>
              { key := some (mkKittyKey (digitsToNat d.1) (digitsToNat m.1)
                  (escChar :: '[' :: d.1 ++ ';' :: m.1 ++ ['u'])),
                consumedLength := 2 + d.1.length + 1 + m.1.length + 1 }
            | _ => { key := none, consumedLength := 0 }
        | _ => { key := none, consumedLength := 0 }
    else { key := none, consumedLength := 0 }
  | _ => { key := none, consumedLength := 0 }

/-- Index of the first escape character in a list, if any. -/
def escIndexAux : List Char → Option Nat
  | [] => none
  | c :: t => if c = escChar then some 0 else (escIndexAux t).map (· + 1)

/-- Embeds `buffer.indexOf(ESC, 1)`: index of the first escape character at
position 1 or later (`none` for the source's `-1`). -/
def escIndexFrom1 : List Char → Option Nat
  | [] => none
  | _ :: t => (escIndexAux t).map (· + 1)

/-- The accumulated-buffer parse loop of `handleKeypress` (lines 368-390):
repeatedly parse a sequence from the front, on failure skip forward to the
next escape character, on success consume and emit.  Returns the emitted
keys, the leftover buffer, and the `parsedAny` flag.  Fuel-indexed; every
iteration strictly shortens the buffer, so `length + 1` fuel suffices. -/
def kittyLoop : Nat → List Char → List Key × List Char × Bool
  | 0, buf => ([], buf, false)
  | _ + 1, [] => ([], [], false)
  | fuel + 1, buf =>
    let r := parseKittySequence buf
    match r.key with
    | none =>
      match escIndexFrom1 buf with
      | some n => kittyLoop fuel (buf.drop n)
      | none => ([], buf, false)
    | some key =>
      let rest := kittyLoop fuel (buf.drop r.consumedLength)
      (key :: rest.1, rest.2.1, true)

/-- The parse loop run with sufficient fuel. -/
def kittyScan (buf : List Char) : List Key × List Char × Bool :=
  kittyLoop (buf.length + 1) buf

/-- Decoder state: the merged mutable refs and atoms owned by the
`KeyboardProvider`.  `bsTimer` is the backslash timer currently referenced by
`backslashTimerRef` (holding the key its callback will broadcast); `bsLeaked`
are backslash timers whose handle was overwritten without being cleared but
which are still scheduled.  `dragTimer` records whether the drag-completion
timer is scheduled.  `kittyEnabled` is the capability flag set at startup. -/
structure DecoderState where
  isPaste : Bool := false
  pasteBuffer : List Char := []
  isDragging : Bool := false
  dragBuffer : List Char := []
  dragTimer : Bool := false
  waitingForEnter : Bool := false
  bsTimer : Option Key := none
  bsLeaked : List Key := []
  kittyBuffer : List Char := []
  kittyEnabled : Bool := false
deriving DecidableEq, Repr

/-- The decoder state at session start, with the detected capability flag. -/
def initState (ke : Bool) : DecoderState := { kittyEnabled := ke }

/-- Embeds `completePaste`: if paste mode is active and the buffer is nonempty,
broadcast one paste event with normalized line endings and leave paste mode;
otherwise do nothing (in particular an empty capture does not exit paste
mode). -/
def completePaste (st : DecoderState) : DecoderState × List Key :=
  if st.isPaste ∧ st.pasteBuffer ≠ [] then
    ({ st with isPaste := false, pasteBuffer := [] },
     [createPasteKey (normalizePaste st.pasteBuffer)])
  else (st, [])

/-- Embeds `completeDrag`: if dragging and the drag buffer is nonempty, broadcast the
buffer as a paste-like event (unnormalized) and leave drag mode; always clear
the drag timer.  The drag buffer itself is not cleared by the source. -/
def completeDrag (st : DecoderState) : DecoderState × List Key :=
  if st.isDragging ∧ st.dragBuffer ≠ [] then
    ({ st with isDragging := false, dragTimer := false },
     [createPasteKey st.dragBuffer])
  else ({ st with dragTimer := false }, [])

/-- Modelled from the spec: `clearBuffersAtom` (the keyboard atoms module is
not among the sources) clears the paste/drag/extended buffers; it does not
touch the provider's local refs (mode flags, timers). -/
def clearBuffers (st : DecoderState) : DecoderState :=
  { st with pasteBuffer := [], dragBuffer := [], kittyBuffer := [] }

/-- Does the raw sequence start with the escape character
(`sequence.startsWith(ESC)`)? -/
def isEscPrefixed (s : List Char) : Bool :=
  match s with
  | c :: _ => c = escChar
  | [] => false

/-- The Alt-letter branch guard: `mappedLetter && !parsedKey.meta`. -/
def altCond (k : Key) : Bool := (mapAltKeyCharacter k.sequence).isSome && !k.meta

/-- The event broadcast by the Alt-letter branch:
`{ ...parsedKey, name: mappedLetter, meta: true }`. -/
def altEvent (k : Key) : Key :=
  { k with name := ((mapAltKeyCharacter k.sequence).map String.singleton).getD "",
           meta := true }

/-- Tail of `handleKeypress` (lines 411-417): the special Ctrl+C buffer clear,
then the default broadcast of the parsed key. -/
def defaultTail (st : DecoderState) (k : Key) (acc : List Key) :
    DecoderState × List Key :=
  let st1 := if k.ctrl && k.name = "c" then clearBuffers st else st
  (st1, acc ++ [k])

/-- Extended-protocol handling and default tail of `handleKeypress`
(lines 347-417), entered after the backslash-flush point with `acc` holding a
possibly-flushed pending backslash event. -/
def kittyAndDefault (st : DecoderState) (k : Key) (acc : List Key) :
    DecoderState × List Key :=
  let s := k.sequence
  if st.kittyEnabled && isEscPrefixed s then
    match (parseKittySequence s).key with
    | some key => (st, acc ++ [key])
    | none =>
      let buf := st.kittyBuffer ++ s
      let r := kittyScan buf
      if r.2.2 then ({ st with kittyBuffer := r.2.1 }, acc ++ r.1)
      else if MAX_KITTY_SEQUENCE_LENGTH < st.kittyBuffer.length then
        defaultTail { st with kittyBuffer := [] } k acc
      else ({ st with kittyBuffer := buf }, acc)
  else defaultTail st k acc

/-- One invocation of `handleKeypress` on a parsed input unit, in
decoded-keypress (non-passthrough) mode.  Faithful to the branch order of the
source: focus events, paste boundaries, paste capture, drag, Alt letters,
return-completing-backslash, ESC+CR / ESC+LF, lone backslash, pending
backslash flush, extended protocol, Ctrl+C clear, default broadcast. -/
def handleKeypress (st : DecoderState) (k : Key) : DecoderState × List Key :=
  let s := k.sequence
  if (isFocusEvent s).1 ∨ (isFocusEvent s).2 then (st, [])
  else if (isPasteModeBoundary s).1 then
    ({ st with isPaste := true, pasteBuffer := [] }, [])
  else if (isPasteModeBoundary s).2 then completePaste st
  else if st.isPaste then
    ({ st with pasteBuffer := st.pasteBuffer ++ s }, [])
  else if isDragStart s || st.isDragging then
    ({ st with isDragging := true, dragBuffer := st.dragBuffer ++ s,
               dragTimer := true }, [])
  else if altCond k then (st, [altEvent k])
  else if k.name = "return" ∧ st.waitingForEnter then
    ({ st with waitingForEnter := false, bsTimer := none },
     [{ k with shift := true }])
  else if s = [escChar, '\r'] ∨ s = [escChar, '\n'] then
    (st, [{ name := "return", ctrl := false, meta := false, shift := true,
            paste := false, sequence := s }])
  else if s = BACKSLASH ∧ k.name = "" then
    ({ st with waitingForEnter := true,
               bsLeaked := st.bsLeaked ++ st.bsTimer.toList,
               bsTimer := some k }, [])
  else
    let flush := st.waitingForEnter && !(k.name = "return" : Bool)
    let st9 := if flush then { st with waitingForEnter := false, bsTimer := none }
               else st
    let acc : List Key := if flush then [createSpecialKey "" BACKSLASH] else []
    kittyAndDefault st9 k acc

/-- An input to the decoder: a parsed key unit, or the firing of one of the
scheduled timers (the referenced backslash timer, a leaked backslash timer,
or the drag-completion timer). -/
inductive Input where
  | key (k : Key)
  | bsTimerFire
  | bsLeakedFire (i : Nat)
  | dragTimerFire
deriving DecidableEq, Repr

/-- One decoder step.  A timer can only fire while it is scheduled; firing the
backslash timer runs its callback (`waitingForEnter := false`, broadcast the
captured backslash key); firing the drag timer runs `completeDrag`. -/
def step (st : DecoderState) : Input → DecoderState × List Key
  | .key k => handleKeypress st k
  | .bsTimerFire =>
    match st.bsTimer with
    | some k => ({ st with bsTimer := none, waitingForEnter := false }, [k])
    | none => (st, [])
  | .bsLeakedFire i =>
    if h : i < st.bsLeaked.length then
      ({ st with bsLeaked := st.bsLeaked.eraseIdx i, waitingForEnter := false },
       [st.bsLeaked.get ⟨i, h⟩])
    else (st, [])
  | .dragTimerFire => if st.dragTimer then completeDrag st else (st, [])

/-- Run the decoder over a list of inputs, collecting all broadcast events in
order. -/
def run (st : DecoderState) : List Input → DecoderState × List Key
  | [] => (st, [])
  | i :: rest =>
    ((run (step st i).1 rest).1, (step st i).2 ++ (run (step st i).1 rest).2)


/-! Byte-level paste scanning (raw-interception mode).

In passthrough mode the controller's `handleRawData` scans raw chunks for the
paste markers itself, while in decoded-keypress mode the paste handling lives
in the front of `handleKeypress` plus `completePaste`.  To compare the two,
both are modelled over the shared paste state below; paste events are the
only collected output (forwarded non-paste bytes feed the rest of the
pipeline and are not part of the comparison). -/

/-- The paste-machinery state shared by both paste paths: the paste-mode flag
(`isPasteRef`) and the accumulator (`pasteBufferRef`). -/
structure PasteSt where
  isPaste : Bool := false
  buf : List Char := []
deriving DecidableEq, Repr

/-- Embeds `completePaste` over the shared paste state. -/
def completePasteP (st : PasteSt) : PasteSt × List Key :=
  if st.isPaste ∧ st.buf ≠ [] then
    ({ isPaste := false, buf := [] }, [createPasteKey (normalizePaste st.buf)])
  else (st, [])

/-- The paste-handling fragment of `handleKeypress` (lines 254-281, decoded
keypress mode): focus filtering, paste boundary markers, paste-mode
accumulation; any other unit is passed to the rest of the pipeline and
produces no paste event. -/
def pasteKeypressStep (st : PasteSt) (u : List Char) : PasteSt × List Key :=
  if (isFocusEvent u).1 ∨ (isFocusEvent u).2 then (st, [])
  else if (isPasteModeBoundary u).1 then ({ isPaste := true, buf := [] }, [])
  else if (isPasteModeBoundary u).2 then completePasteP st
  else if st.isPaste then ({ st with buf := st.buf ++ u }, [])
  else (st, [])

/-- Position of the earliest occurrence of either paste marker in a chunk,
with the flag telling whether it is the start marker.  Embeds the
`indexOf`-based marker selection of `handleRawData` (lines 429-442); the two
markers differ at their fifth character, so they never match at the same
position. -/
def findMarker : List Char → Option (Nat × Bool)
  | [] => none
  | c :: t =>
    if PASTE_MODE_START.isPrefixOf (c :: t) then some (0, true)
    else if PASTE_MODE_END.isPrefixOf (c :: t) then some (0, false)
    else (findMarker t).map (fun p => (p.1 + 1, p.2))

/-- The scanning loop of `handleRawData` (lines 427-483) on one raw chunk:
data before a marker is accumulated in paste mode or forwarded otherwise; a
start marker (re)enters paste mode with a fresh buffer; an end marker runs
`completePaste`.  Fuel-indexed; every iteration consumes the marker's six
characters, so `length + 1` fuel suffices. -/
def rawScanAux : Nat → PasteSt → List Char → PasteSt × List Key
  | 0, st, _ => (st, [])
  | fuel + 1, st, s =>
    match findMarker s with
    | none => if st.isPaste then ({ st with buf := st.buf ++ s }, []) else (st, [])
    | some p =>
      let st1 := if st.isPaste then { st with buf := st.buf ++ s.take p.1 } else st
      let rest := s.drop (p.1 + 6)
      if p.2 then rawScanAux fuel { isPaste := true, buf := [] } rest
      else
        let c := completePasteP st1
        ((rawScanAux fuel c.1 rest).1, c.2 ++ (rawScanAux fuel c.1 rest).2)

/-- One `handleRawData` invocation on one raw chunk. -/
def rawScanChunk (st : PasteSt) (s : List Char) : PasteSt × List Key :=
  rawScanAux (s.length + 1) st s

/-- The raw-interception paste path over a list of raw chunks. -/
def runRaw (st : PasteSt) : List (List Char) → PasteSt × List Key
  | [] => (st, [])
  | c :: rest =>
    ((runRaw (rawScanChunk st c).1 rest).1,
     (rawScanChunk st c).2 ++ (runRaw (rawScanChunk st c).1 rest).2)

/-- The decoded-keypress paste path over the same chunks, one chunk per
keypress unit. -/
def runKeypressPaste (st : PasteSt) : List (List Char) → PasteSt × List Key
  | [] => (st, [])
  | c :: rest =>
    ((runKeypressPaste (pasteKeypressStep st c).1 rest).1,
     (pasteKeypressStep st c).2 ++ (runKeypressPaste (pasteKeypressStep st c).1 rest).2)

/-- Does `pat` occur as a contiguous subsequence anywhere in the chunk? -/
def containsSeq (pat : List Char) : List Char → Bool
  | [] => pat.isPrefixOf []
  | c :: t => pat.isPrefixOf (c :: t) || containsSeq pat t

/-- A chunk on which the two paste paths can be compared: exactly a paste
marker, or free of both markers and not a focus report. -/
def chunkOK (c : List Char) : Prop :=
  c = PASTE_MODE_START ∨ c = PASTE_MODE_END ∨
    (containsSeq PASTE_MODE_START c = false ∧ containsSeq PASTE_MODE_END c = false ∧
     (isFocusEvent c).1 = false ∧ (isFocusEvent c).2 = false)

instance (c : List Char) : Decidable (chunkOK c) := by
  unfold chunkOK
  infer_instance

/-! The event broadcaster (`EventEmitter` of `src/unnamed/part_006`).

A listener is modelled as a function from the event datum and a world state
to a new world state plus a thrown-exception flag: side effects performed
before a throw persist.  JS function reference identity is modelled by a
numeric id; the JS `Set` of listeners iterates in insertion order and ignores
re-insertion of a present element. -/

/-- A subscribed listener: event datum and world in, world and "threw" out. -/
def Listener (T σ : Type) := T → σ → σ × Bool

/-- The event emitter: its listener set in insertion order. -/
structure EventEmitter (T σ : Type) where
  listeners : List (Nat × Listener T σ) := []

/-- Embeds the `event` subscription function: add the listener to the set
(`Set.add` keeps the set unchanged when the element is present). -/
def EventEmitter.subscribe (em : EventEmitter T σ) (id : Nat) (f : Listener T σ) :
    EventEmitter T σ :=
  if em.listeners.any (fun p => p.1 == id) then em
  else { listeners := em.listeners ++ [(id, f)] }

/-- Embeds `Disposable.dispose`: delete the listener from the set. -/
def EventEmitter.disposeListener (em : EventEmitter T σ) (id : Nat) :
    EventEmitter T σ :=
  { listeners := em.listeners.filter (fun p => p.1 != id) }

/-- Embeds `fire`: invoke every listener in insertion order with the datum,
catching (and ignoring) anything a listener throws, so one failing listener
stops neither the loop nor the call. -/
def EventEmitter.fire (em : EventEmitter T σ) (data : T) (s : σ) : σ :=
  em.listeners.foldl (fun acc p => (p.2 data acc).1) s

/-- A logging listener for observing deliveries: records `(id, datum)` in the
world, then throws iff its flag says so. -/
def mkLogger (i : Nat) (throws : Bool) : Listener Nat (List (Nat × Nat)) :=
  fun d s => (s ++ [(i, d)], throws)

/-- The emitter obtained by subscribing one logging listener per spec, in
list order. -/
def emitterOf (specs : List (Nat × Bool)) : EventEmitter Nat (List (Nat × Nat)) :=
  specs.foldl (fun em p => em.subscribe p.1 (mkLogger p.1 p.2)) {}

/-! Concrete input units used by counterexamples and witnesses. -/

/-- The empty key name. -/
def emptyName : String := ""

/-- The bracketed-paste start marker as an atomic keypress unit. -/
def pasteStartKey : Key := { sequence := PASTE_MODE_START }

/-- The bracketed-paste end marker as an atomic keypress unit. -/
def pasteEndKey : Key := { sequence := PASTE_MODE_END }

/-- The Ctrl+C unit as delivered by the keypress decoder. -/
def ctrlCKey : Key := { name := "c", ctrl := true, sequence := ['\x03'] }

/-- A lone backslash unit (`sequence` a single backslash, no key name). -/
def bsKey : Key := { sequence := ['\\'] }

/-- A plain Return unit. -/
def crKey : Key := { name := "return", sequence := ['\r'] }

/-- The ESC+CR unit (one terminal encoding of Shift+Enter). -/
def escCRKey : Key := { name := "return", meta := true, sequence := [escChar, '\r'] }

/-- The ESC+LF unit (the other terminal encoding of Shift+Enter). -/
def escLFKey : Key := { name := "enter", meta := true, sequence := [escChar, '\n'] }

/-- A drag-start unit (a dropped file-URI fragment). -/
def dragKey : Key := { sequence := DRAG_MARK ++ ['a'] }

/-- A focus-in report unit. -/
def focusInKey : Key := { sequence := [escChar, '[', 'I'] }

/-- A plain letter unit. -/
def letterAKey : Key := { name := "a", sequence := ['a'] }

/-- First half of a split extended-protocol sequence for code 97. -/
def splitKitty1 : Key := { sequence := [escChar, '[', '9'] }

/-- Second half of the split sequence (does not start with ESC). -/
def splitKitty2 : Key := { sequence := ['7', 'u'] }

/-- A complete extended-protocol unit for key code 97 (letter a). -/
def kittyAKey : Key := { sequence := [escChar, '[', '9', '7', 'u'] }

/-- An ESC-prefixed unit that is neither parseable nor an Alt letter and
contains no second escape character (grows the extended accumulator). -/
def kittyJunkKey : Key := { sequence := [escChar, '[', 'x'] }

/-- A decoder state whose extended accumulator already exceeds the bound. -/
def overflowState : DecoderState :=
  { initState true with kittyBuffer := List.replicate 257 'z' }

/-- Helper event: the Shift+Enter logical event for a given raw sequence. -/
def shiftReturnOf (s : List Char) : Key :=
  { name := "return", ctrl := false, meta := false, shift := true,
    paste := false, sequence := s }

/-- A paste content chunk containing a CRLF. -/
def chunkCRLF : Key := { sequence := ['a', '\r', '\n', 'b'] }

/-- A paste content chunk containing a bare CR. -/
def chunkCR : Key := { sequence := ['\r', 'c'] }

/-- The logical event decoded from the extended-protocol unit for code 97. -/
def kittyAEvent : Key := { name := "a", sequence := [escChar, '[', '9', '7', 'u'] }

/-- A raw chunk with paste content attached directly to the start marker,
followed by the end marker in its own chunk. -/
def mixedChunks : List (List Char) :=
  [PASTE_MODE_START ++ ['a', 'b', 'c'], PASTE_MODE_END]


/-! Theorems.  Claims C1-C10 of the specification, settled against the
embedding above. -/

/-- C2: for each of the three supported raw encodings of Shift+Enter (the
unit ESC+CR, the unit ESC+LF, and a lone backslash followed by a Return unit
inside the detection window), the decoder emits exactly one LogicalKeyEvent
with name "return" and shift set, and no separate backslash event in the
heuristic case; checked with the extended-protocol capability both off and
on. -/
theorem c2_shift_enter_encodings :
    ((run (initState false) [.key escCRKey]).2 = [shiftReturnOf [escChar, '\r']] ∧
     (run (initState true) [.key escCRKey]).2 = [shiftReturnOf [escChar, '\r']]) ∧
    ((run (initState false) [.key escLFKey]).2 = [shiftReturnOf [escChar, '\n']] ∧
     (run (initState true) [.key escLFKey]).2 = [shiftReturnOf [escChar, '\n']]) ∧
    ((run (initState false) [.key bsKey, .key crKey]).2 = [{ crKey with shift := true }] ∧
     (run (initState true) [.key bsKey, .key crKey]).2 = [{ crKey with shift := true }]) := by
  decide

/-- C9: a lone backslash with no Return before the detection window elapses:
when the timer fires, the decoder emits exactly one literal backslash key
event and no Return event, and the pending flag and timer are cleared;
checked with the capability flag both off and on. -/
theorem c9_backslash_timeout :
    ((run (initState false) [.key bsKey, .bsTimerFire]).2 = [bsKey] ∧
     (run (initState false) [.key bsKey, .bsTimerFire]).1.waitingForEnter = false ∧
     (run (initState false) [.key bsKey, .bsTimerFire]).1.bsTimer = none) ∧
    ((run (initState true) [.key bsKey, .bsTimerFire]).2 = [bsKey] ∧
     (run (initState true) [.key bsKey, .bsTimerFire]).1.waitingForEnter = false ∧
     (run (initState true) [.key bsKey, .bsTimerFire]).1.bsTimer = none) := by
  decide

/-- C3 counterexample: feeding the bracketed-paste start marker and then
Ctrl+C yields no event at all (the Ctrl+C unit is appended to the paste
buffer), and the decoder still has pasteActive set, contradicting the claimed
Ctrl+C key event, state clearing and pasteActive=false. -/
theorem c3_ctrl_c_in_paste_counterexample :
    (run (initState false) [.key pasteStartKey, .key ctrlCKey]).2 = [] ∧
    (run (initState false) [.key pasteStartKey, .key ctrlCKey]).1.isPaste = true ∧
    (run (initState false) [.key pasteStartKey, .key ctrlCKey]).1.pasteBuffer
      = ctrlCKey.sequence := by
  decide

/-- C3 amended: while the decoder is in paste-capture mode, a Ctrl+C unit is
absorbed into the paste accumulator like any other unit: no event is emitted,
no state is cleared, and pasteActive stays true; the unconditional
clear-and-deliver behavior of Ctrl+C applies only outside capture modes. -/
theorem c3_ctrl_c_in_paste_amended (st : DecoderState) (hp : st.isPaste = true) :
    step st (.key ctrlCKey) =
      ({ st with pasteBuffer := st.pasteBuffer ++ ctrlCKey.sequence }, []) := by
  obtain ⟨p, pb, dg, db, dt, w, bt, bl, kb, ke⟩ := st
  simp only at hp
  subst hp
  rfl

/-- C3 amended, witness at a concrete paste-capture state. -/
theorem c3_ctrl_c_in_paste_witness :
    step { initState false with isPaste := true } (.key ctrlCKey) =
      ({ initState false with
          isPaste := true,
          pasteBuffer := ctrlCKey.sequence }, []) :=
  c3_ctrl_c_in_paste_amended { initState false with isPaste := true } rfl

/-- C4 counterexample: from the initial state, a drag-start unit followed by
the bracketed-paste start marker leaves the decoder with both pasteActive and
dragActive true, refuting the mutual-exclusion invariant. -/
theorem c4_mutual_exclusion_counterexample :
    (run (initState false) [.key dragKey, .key pasteStartKey]).1.isPaste = true ∧
    (run (initState false) [.key dragKey, .key pasteStartKey]).1.isDragging = true := by
  decide

/-- C4 amended: the violation is one-directional only: while pasteActive is
true, no input (key or timer firing) can set dragActive, because paste
capture consumes every unit before the drag branch; a paste start marker
during drag capture, however, does set pasteActive (see the
counterexample). -/
theorem c4_no_drag_while_paste (st : DecoderState) (i : Input)
    (hp : st.isPaste = true) (hd : st.isDragging = false) :
    (step st i).1.isDragging = false := by
  cases i with
  | key k =>
    simp only [step, handleKeypress]
    split
    · simpa using hd
    · split
      · simpa using hd
      · split
        · simp only [completePaste]
          split
          · simpa using hd
          · simpa using hd
        · simp [hp, hd]
  | bsTimerFire =>
    simp only [step]
    cases st.bsTimer <;> simpa using hd
  | bsLeakedFire i =>
    simp only [step]
    split <;> simpa using hd
  | dragTimerFire =>
    simp only [step, completeDrag]
    split
    · split
      · simp_all
      · simpa using hd
    · simpa using hd

/-- C4 amended, witness: a letter unit arriving during paste capture does not
set dragActive. -/
theorem c4_no_drag_while_paste_witness :
    (step { initState false with isPaste := true } (.key letterAKey)).1.isDragging
      = false :=
  c4_no_drag_while_paste { initState false with isPaste := true }
    (.key letterAKey) rfl rfl


/-- Splitting a run of inputs: the state threads through and the events
concatenate. -/
theorem run_append (st : DecoderState) (l1 l2 : List Input) :
    run st (l1 ++ l2) =
      ((run (run st l1).1 l2).1, (run st l1).2 ++ (run (run st l1).1 l2).2) := by
  induction l1 generalizing st with
  | nil => simp [run]
  | cons i t ih => simp [run, ih]

/-- During paste capture, every unit that is neither a focus report nor a
paste boundary is appended to the accumulator and emits nothing. -/
theorem paste_capture_run (ke : Bool) (chunks : List Key)
    (hok : ∀ c ∈ chunks, (isFocusEvent c.sequence).1 = false ∧
      (isFocusEvent c.sequence).2 = false ∧
      (isPasteModeBoundary c.sequence).1 = false ∧
      (isPasteModeBoundary c.sequence).2 = false) :
    ∀ b : List Char,
      run { initState ke with isPaste := true, pasteBuffer := b }
          (chunks.map Input.key)
        = ({ initState ke with
              isPaste := true,
              pasteBuffer := b ++ (chunks.map Key.sequence).flatten }, []) := by
  induction chunks with
  | nil => intro b; simp [run, initState]
  | cons c cs ih =>
    intro b
    obtain ⟨h1, h2, h3, h4⟩ := hok c (List.mem_cons_self c cs)
    have ih2 := ih (fun x hx => hok x (List.mem_cons_of_mem c hx))
    simp only [List.map_cons, run, step, handleKeypress, h1, h2, h3, h4]
    simp only [initState] at ih2 ⊢
    simp [ih2 (b ++ c.sequence)]


/-- C1 counterexample: a bracketed-paste start marker immediately followed by
the end marker (empty captured content, a legal instance of "an arbitrary
character sequence") emits no paste event at all, and the decoder even stays
in paste-capture mode, refuting "exactly one LogicalKeyEvent with
paste=true". -/
theorem c1_empty_paste_counterexample :
    (run (initState false) [.key pasteStartKey, .key pasteEndKey]).2 = [] ∧
    (run (initState false) [.key pasteStartKey, .key pasteEndKey]).1.isPaste
      = true := by
  decide

/-- C1 amended: provided the captured content is nonempty and no content
chunk is a focus report or starts with a paste marker, feeding the start
marker, the content chunks and the end marker emits exactly one event: a
paste event whose text is the captured content with every CRLF and every
remaining CR replaced by LF; the decoder returns to its initial state. -/
theorem c1_paste_normalization_amended (ke : Bool) (chunks : List Key)
    (hok : ∀ c ∈ chunks, (isFocusEvent c.sequence).1 = false ∧
      (isFocusEvent c.sequence).2 = false ∧
      (isPasteModeBoundary c.sequence).1 = false ∧
      (isPasteModeBoundary c.sequence).2 = false)
    (hne : (chunks.map Key.sequence).flatten ≠ []) :
    run (initState ke)
        (.key pasteStartKey :: chunks.map Input.key ++ [.key pasteEndKey])
      = (initState ke,
         [createPasteKey (normalizePaste (chunks.map Key.sequence).flatten)]) := by
  have hstart : step (initState ke) (.key pasteStartKey)
      = ({ initState ke with isPaste := true, pasteBuffer := [] }, []) := rfl
  have hcap := paste_capture_run ke chunks hok []
  have hrun : run (initState ke)
      (.key pasteStartKey :: chunks.map Input.key ++ [.key pasteEndKey])
      = ((run { initState ke with isPaste := true, pasteBuffer := [] }
            (chunks.map Input.key ++ [.key pasteEndKey])).1,
         (run { initState ke with isPaste := true, pasteBuffer := [] }
            (chunks.map Input.key ++ [.key pasteEndKey])).2) := by
    simp [run, hstart]
  rw [hrun, run_append]
  simp only [List.nil_append] at hcap
  rw [hcap]
  have hend : step { initState ke with
        isPaste := true,
        pasteBuffer := (chunks.map Key.sequence).flatten } (.key pasteEndKey)
      = (initState ke,
         [createPasteKey (normalizePaste (chunks.map Key.sequence).flatten)]) := by
    simp only [step, handleKeypress, completePaste]
    norm_num [pasteEndKey, isFocusEvent, isPasteModeBoundary, PASTE_MODE_START,
      PASTE_MODE_END, List.isPrefixOf, escChar, hne, initState]
    rw [if_neg (by decide), if_neg (by decide)]
  simp [run, hend]


/-- C1 amended, witness: two chunks containing a CRLF and a bare CR produce
one paste event with both normalized to LF. -/
theorem c1_paste_normalization_witness :
    run (initState false)
        (.key pasteStartKey :: [chunkCRLF, chunkCR].map Input.key
          ++ [.key pasteEndKey])
      = (initState false, [createPasteKey ['a', '\n', 'b', '\n', 'c']]) := by
  rw [c1_paste_normalization_amended false [chunkCRLF, chunkCR] (by decide)
    (by decide)]
  rfl

/-- Events accumulated before the extended-protocol stage are prepended to
whatever that stage and the default tail emit. -/
theorem kittyAndDefault_acc (st : DecoderState) (k : Key) (acc : List Key) :
    kittyAndDefault st k acc
      = ((kittyAndDefault st k []).1, acc ++ (kittyAndDefault st k []).2) := by
  simp only [kittyAndDefault, defaultTail]
  split
  · split
    · simp
    · split
      · simp
      · split
        · split <;> simp
        · simp
  · split <;> simp

/-- C8 counterexample: with a backslash pending, a focus-report unit is
discarded by the focus branch before the flush point: no backslash event is
emitted and the pending timer is not cancelled, refuting the claim for that
(non-Return) unit. -/
theorem c8_flush_counterexample :
    (run (initState false) [.key bsKey, .key focusInKey]).2 = [] ∧
    (run (initState false) [.key bsKey, .key focusInKey]).1.bsTimer
      = some bsKey ∧
    (run (initState false) [.key bsKey, .key focusInKey]).1.waitingForEnter
      = true := by
  decide

/-- C8 amended: with a backslash pending, a non-Return unit that actually
reaches the flush point (it is not a focus report, paste boundary, captured
paste/drag unit, drag start, Alt-letter, ESC+CR/LF, or another lone
backslash) cancels the pending timer, emits the pending backslash as a
literal key event first, and then emits exactly the events the unit would
produce from the cancelled state under the normal rules.  Units consumed by
an earlier branch skip the flush (see the counterexample). -/
theorem c8_backslash_flush_amended (st : DecoderState) (k : Key)
    (hw : st.waitingForEnter = true)
    (hn : k.name ≠ "return")
    (h1 : (isFocusEvent k.sequence).1 = false)
    (h2 : (isFocusEvent k.sequence).2 = false)
    (h3 : (isPasteModeBoundary k.sequence).1 = false)
    (h4 : (isPasteModeBoundary k.sequence).2 = false)
    (h5 : st.isPaste = false)
    (h6 : isDragStart k.sequence = false)
    (h7 : st.isDragging = false)
    (h8 : altCond k = false)
    (h9 : k.sequence ≠ [escChar, '\r'])
    (h10 : k.sequence ≠ [escChar, '\n'])
    (h11 : ¬(k.sequence = BACKSLASH ∧ k.name = emptyName)) :
    step st (.key k)
      = ((step { st with waitingForEnter := false, bsTimer := none } (.key k)).1,
         createSpecialKey emptyName BACKSLASH
           :: (step { st with waitingForEnter := false, bsTimer := none }
                (.key k)).2) := by
  have hnb : (k.name = "return") = False := by simp [hn]
  simp only [step, handleKeypress, h1, h2, h3, h4, h5, h6, h7, h8, hw, hnb,
    emptyName] at h11 ⊢
  rw [if_neg (by simp), if_neg (by simp), if_neg (by simp [h11]),
    if_neg (by simp), if_neg (by simp), if_neg (by simp [h9, h10]),
    if_neg (by simp [h11]), if_neg (by simp [h9, h10]), if_neg (by simp [h11])]
  simp only [Bool.true_and, Bool.not_false, decide_False, Bool.not_eq_true,
    if_true]
  rw [kittyAndDefault_acc]
  simp [if_neg (fun h => Or.elim h h9 h10), if_neg h11]


/-- C8 amended, witness: a letter unit with a backslash pending flushes the
backslash first, then the letter's default event, and cancels the timer. -/
theorem c8_backslash_flush_witness :
    step { initState false with waitingForEnter := true, bsTimer := some bsKey }
        (.key letterAKey)
      = (initState false, [createSpecialKey emptyName BACKSLASH, letterAKey]) := by
  rw [c8_backslash_flush_amended
    { initState false with waitingForEnter := true, bsTimer := some bsKey }
    letterAKey rfl (by decide) (by decide) (by decide) (by decide) (by decide)
    rfl (by decide) rfl (by decide) (by decide) (by decide) (by decide)]
  decide

/-- C5: extended-protocol accumulator safety.  First conjunct: a kitty-branch
step whose pre-state accumulator exceeds MAX_KITTY_SEQUENCE_LENGTH and for
which nothing is parseable resets the accumulator to empty and emits only the
default literal event for the current unit (no event carries the discarded
accumulated content).  Second conjunct: afterwards (from any quiescent state)
a unit holding a complete valid sequence is parsed and emitted normally, so
there is no permanent stall. -/
theorem c5_kitty_overflow_reset :
    (∀ (st : DecoderState) (k : Key),
      (isFocusEvent k.sequence).1 = false →
      (isFocusEvent k.sequence).2 = false →
      (isPasteModeBoundary k.sequence).1 = false →
      (isPasteModeBoundary k.sequence).2 = false →
      st.isPaste = false →
      isDragStart k.sequence = false →
      st.isDragging = false →
      altCond k = false →
      st.waitingForEnter = false →
      k.sequence ≠ [escChar, '\r'] →
      k.sequence ≠ [escChar, '\n'] →
      ¬(k.sequence = BACKSLASH ∧ k.name = emptyName) →
      st.kittyEnabled = true →
      isEscPrefixed k.sequence = true →
      (parseKittySequence k.sequence).key = none →
      (kittyScan (st.kittyBuffer ++ k.sequence)).2.2 = false →
      MAX_KITTY_SEQUENCE_LENGTH < st.kittyBuffer.length →
      (step st (.key k)).1.kittyBuffer = [] ∧ (step st (.key k)).2 = [k]) ∧
    (∀ (st : DecoderState) (u : Key) (kk : Key),
      (isFocusEvent u.sequence).1 = false →
      (isFocusEvent u.sequence).2 = false →
      (isPasteModeBoundary u.sequence).1 = false →
      (isPasteModeBoundary u.sequence).2 = false →
      st.isPaste = false →
      isDragStart u.sequence = false →
      st.isDragging = false →
      altCond u = false →
      st.waitingForEnter = false →
      u.sequence ≠ [escChar, '\r'] →
      u.sequence ≠ [escChar, '\n'] →
      ¬(u.sequence = BACKSLASH ∧ u.name = emptyName) →
      st.kittyEnabled = true →
      isEscPrefixed u.sequence = true →
      (parseKittySequence u.sequence).key = some kk →
      (step st (.key u)).2 = [kk]) := by
  constructor
  · intro st k h1 h2 h3 h4 h5 h6 h7 h8 h9 h10 h11 h12 h13 h14 h15 h16 h17
    simp only [step, handleKeypress, h1, h2, h3, h4, h5, h6, h7, h8, h9,
      emptyName] at h12 ⊢
    rw [if_neg (by simp), if_neg (by simp), if_neg (by simp), if_neg (by simp),
      if_neg (by simp), if_neg (by simp), if_neg (by simp),
      if_neg (fun h => Or.elim h h10 h11), if_neg h12]
    simp only [Bool.false_and, Bool.not_eq_true, if_false, Bool.false_eq_true,
      if_neg (Bool.false_ne_true)]
    simp only [kittyAndDefault, h13, h14, Bool.and_self, if_true, h15]
    simp only [h16, Bool.false_eq_true, if_false]
    rw [if_pos h17]
    simp only [defaultTail]
    constructor
    · split <;> rfl
    · simp
  · intro st u kk h1 h2 h3 h4 h5 h6 h7 h8 h9 h10 h11 h12 h13 h14 h15
    simp only [step, handleKeypress, h1, h2, h3, h4, h5, h6, h7, h8, h9,
      emptyName] at h12 ⊢
    rw [if_neg (by simp), if_neg (by simp), if_neg (by simp), if_neg (by simp),
      if_neg (by simp), if_neg (by simp), if_neg (by simp),
      if_neg (fun h => Or.elim h h10 h11), if_neg h12]
    simp only [Bool.false_and, Bool.not_eq_true, if_false, Bool.false_eq_true,
      if_neg (Bool.false_ne_true)]
    simp only [kittyAndDefault, h13, h14, Bool.and_self, if_true, h15]
    rfl


set_option maxRecDepth 20000 in
/-- C5, witness: a state whose accumulator holds 257 junk characters resets
to empty on the next unparseable ESC-prefixed unit, emitting only that unit's
literal event; afterwards a complete valid sequence decodes normally. -/
theorem c5_kitty_overflow_witness :
    ((step overflowState (.key kittyJunkKey)).1.kittyBuffer = [] ∧
     (step overflowState (.key kittyJunkKey)).2 = [kittyJunkKey]) ∧
    (step (initState true) (.key kittyAKey)).2 = [kittyAEvent] := by
  constructor
  · exact c5_kitty_overflow_reset.1 overflowState kittyJunkKey (by decide)
      (by decide) (by decide) (by decide) rfl (by decide) rfl (by decide) rfl
      (by decide) (by decide) (by decide) rfl rfl (by decide) (by decide)
      (by decide)
  · exact c5_kitty_overflow_reset.2 (initState true) kittyAKey kittyAEvent
      (by decide) (by decide) (by decide) (by decide) rfl (by decide) rfl
      (by decide) rfl (by decide) (by decide) (by decide) rfl rfl (by decide)


/-- A nonempty buffer that neither parses nor contains a second escape
character makes the accumulated-buffer loop stop immediately: nothing parsed,
buffer kept. -/
theorem kittyScan_stuck (s : List Char) (hs : s ≠ [])
    (hp : (parseKittySequence s).key = none) (he : escIndexFrom1 s = none) :
    kittyScan s = ([], s, false) := by
  obtain ⟨c, t, rfl⟩ := List.exists_cons_of_ne_nil hs
  simp only [kittyScan, List.length_cons, kittyLoop, hp, he]

/-- A unit that is not captured by any of the branches before the
backslash-flush point, arriving in a quiescent state (no capture modes, no
pending backslash), is processed by the extended-protocol stage and the
default tail alone. -/
theorem handleKeypress_quiescent (st : DecoderState) (k : Key)
    (hp : st.isPaste = false) (hd : st.isDragging = false)
    (hw : st.waitingForEnter = false)
    (h1 : (isFocusEvent k.sequence).1 = false)
    (h2 : (isFocusEvent k.sequence).2 = false)
    (h3 : (isPasteModeBoundary k.sequence).1 = false)
    (h4 : (isPasteModeBoundary k.sequence).2 = false)
    (h5 : isDragStart k.sequence = false)
    (h6 : altCond k = false)
    (h7 : k.sequence ≠ [escChar, '\r'])
    (h8 : k.sequence ≠ [escChar, '\n'])
    (h9 : ¬(k.sequence = BACKSLASH ∧ k.name = emptyName)) :
    handleKeypress st k = kittyAndDefault st k [] := by
  simp only [handleKeypress, h1, h2, h3, h4, h5, h6, hp, hd, hw,
    emptyName] at h9 ⊢
  rw [if_neg (by simp), if_neg (by simp), if_neg (by simp), if_neg (by simp),
    if_neg (by simp), if_neg (by simp), if_neg (by simp),
    if_neg (fun h => Or.elim h h7 h8), if_neg h9]
  simp

/-- C6 counterexample: with the extended protocol enabled, the valid sequence
ESC [ 9 7 u split as "ESC [ 9" then "7 u" yields zero events on the first
delivery, but the second delivery is broadcast as a raw default event (not
the decoded key), the fragment stays stuck in the accumulator, and the
correct event for the full sequence is never emitted. -/
theorem c6_split_sequence_counterexample :
    (run (initState true) [.key splitKitty1]).2 = [] ∧
    (run (initState true) [.key splitKitty1, .key splitKitty2]).2
      = [splitKitty2] ∧
    (run (initState true) [.key splitKitty1, .key splitKitty2]).1.kittyBuffer
      = [escChar, '[', '9'] ∧
    (parseKittySequence
        (splitKitty1.sequence ++ splitKitty2.sequence)).key = some kittyAEvent ∧
    splitKitty2 ≠ kittyAEvent := by
  decide

/-- C6 amended: an ESC-prefixed unparseable fragment arriving first emits
nothing and is buffered; a continuation that does not itself start with ESC
bypasses the extended-protocol stage entirely, so it is emitted as a default
literal event and the buffered fragment stays in the accumulator — the split
sequence is never completed.  Completion only happens when a later delivery
itself starts with ESC. -/
theorem c6_split_sequence_amended (p1 p2 : Key)
    (h1 : (isFocusEvent p1.sequence).1 = false)
    (h2 : (isFocusEvent p1.sequence).2 = false)
    (h3 : (isPasteModeBoundary p1.sequence).1 = false)
    (h4 : (isPasteModeBoundary p1.sequence).2 = false)
    (h5 : isDragStart p1.sequence = false)
    (h6 : altCond p1 = false)
    (h7 : p1.sequence ≠ [escChar, '\r'])
    (h8 : p1.sequence ≠ [escChar, '\n'])
    (h9 : ¬(p1.sequence = BACKSLASH ∧ p1.name = emptyName))
    (h10 : isEscPrefixed p1.sequence = true)
    (h11 : (parseKittySequence p1.sequence).key = none)
    (h12 : escIndexFrom1 p1.sequence = none)
    (g1 : (isFocusEvent p2.sequence).1 = false)
    (g2 : (isFocusEvent p2.sequence).2 = false)
    (g3 : (isPasteModeBoundary p2.sequence).1 = false)
    (g4 : (isPasteModeBoundary p2.sequence).2 = false)
    (g5 : isDragStart p2.sequence = false)
    (g6 : altCond p2 = false)
    (g7 : p2.sequence ≠ [escChar, '\r'])
    (g8 : p2.sequence ≠ [escChar, '\n'])
    (g9 : ¬(p2.sequence = BACKSLASH ∧ p2.name = emptyName))
    (g10 : isEscPrefixed p2.sequence = false)
    (g11 : ¬(p2.ctrl = true ∧ p2.name = "c")) :
    run (initState true) [.key p1, .key p2]
      = ({ initState true with kittyBuffer := p1.sequence }, [p2]) := by
  have hne : p1.sequence ≠ [] := by
    intro h
    rw [h] at h10
    simp [isEscPrefixed] at h10
  have hscan := kittyScan_stuck p1.sequence hne h11 h12
  have s1 : step (initState true) (.key p1)
      = ({ initState true with kittyBuffer := p1.sequence }, []) := by
    show handleKeypress (initState true) p1 = _
    rw [handleKeypress_quiescent (initState true) p1 rfl rfl rfl h1 h2 h3 h4
      h5 h6 h7 h8 h9]
    simp [kittyAndDefault, h10, h11, hscan, initState]
  have s2 : step { initState true with kittyBuffer := p1.sequence } (.key p2)
      = ({ initState true with kittyBuffer := p1.sequence }, [p2]) := by
    show handleKeypress _ p2 = _
    rw [handleKeypress_quiescent _ p2 rfl rfl rfl g1 g2 g3 g4 g5 g6 g7 g8 g9]
    simp only [kittyAndDefault, g10, Bool.and_false, Bool.false_eq_true,
      if_false, defaultTail]
    rw [if_neg (by simp only [Bool.and_eq_true, decide_eq_true_eq]; exact g11)]
    simp
  simp [run, s1, s2]

/-- C6 amended, witness at the concrete split of ESC [ 9 7 u. -/
theorem c6_split_sequence_witness :
    run (initState true) [.key splitKitty1, .key splitKitty2]
      = ({ initState true with kittyBuffer := splitKitty1.sequence },
         [splitKitty2]) :=
  c6_split_sequence_amended splitKitty1 splitKitty2 (by decide) (by decide)
    (by decide) (by decide) (by decide) (by decide) (by decide) (by decide)
    (by decide) (by decide) (by decide) (by decide) (by decide) (by decide)
    (by decide) (by decide) (by decide) (by decide) (by decide) (by decide)
    (by decide) (by decide) (by decide)


/-- The raw scanner does nothing more on an exhausted chunk. -/
theorem rawScanAux_nil (fuel : Nat) (st : PasteSt) :
    rawScanAux fuel st [] = (st, []) := by
  cases fuel with
  | zero => rfl
  | succ n =>
    obtain ⟨b, buf⟩ := st
    cases b <;> simp [rawScanAux, findMarker]

/-- A chunk free of both markers passes through the raw scanner in one step:
accumulated in paste mode, forwarded otherwise. -/
theorem rawScanChunk_nomarker (st : PasteSt) (s : List Char)
    (h : findMarker s = none) :
    rawScanChunk st s
      = if st.isPaste then ({ st with buf := st.buf ++ s }, []) else (st, []) := by
  simp only [rawScanChunk, rawScanAux, h]

/-- The raw scanner on a chunk that is exactly the start marker: enter paste
mode with a fresh buffer, no event. -/
theorem rawScanChunk_start (st : PasteSt) :
    rawScanChunk st PASTE_MODE_START = ({ isPaste := true, buf := [] }, []) := rfl

/-- One unfolding of the raw scanner on a chunk that is exactly the end
marker. -/
theorem rawScanAux_end_marker (fuel : Nat) (b : Bool) (buf : List Char) :
    rawScanAux (fuel + 1) ⟨b, buf⟩ PASTE_MODE_END
      = ((rawScanAux fuel
            (completePasteP (if b then ⟨b, buf ++ []⟩ else ⟨b, buf⟩)).1 []).1,
         (completePasteP (if b then ⟨b, buf ++ []⟩ else ⟨b, buf⟩)).2
           ++ (rawScanAux fuel
                (completePasteP (if b then ⟨b, buf ++ []⟩ else ⟨b, buf⟩)).1 []).2) :=
  rfl

/-- The raw scanner on a chunk that is exactly the end marker: complete the
paste. -/
theorem rawScanChunk_end (st : PasteSt) :
    rawScanChunk st PASTE_MODE_END = completePasteP st := by
  obtain ⟨b, buf⟩ := st
  show rawScanAux (PASTE_MODE_END.length + 1) ⟨b, buf⟩ PASTE_MODE_END = _
  rw [rawScanAux_end_marker]
  simp only [rawScanAux_nil, List.append_nil, ite_self]

/-- A pattern that occurs nowhere in a chunk is in particular not one of its
front segments. -/
theorem isPrefixOf_eq_false_of_contains (pat c : List Char)
    (h : containsSeq pat c = false) : pat.isPrefixOf c = false := by
  cases c with
  | nil => simpa [containsSeq] using h
  | cons a t =>
    simp only [containsSeq, Bool.or_eq_false_iff] at h
    exact h.1

/-- If neither marker occurs in a chunk the raw marker search fails. -/
theorem findMarker_eq_none (c : List Char)
    (h1 : containsSeq PASTE_MODE_START c = false)
    (h2 : containsSeq PASTE_MODE_END c = false) :
    findMarker c = none := by
  induction c with
  | nil => rfl
  | cons a t ih =>
    simp only [containsSeq, Bool.or_eq_false_iff] at h1 h2
    simp [findMarker, h1.1, h2.1, ih h1.2 h2.2]

/-- On a comparable chunk the raw byte-level scanner and the keypress-path
paste fragment agree exactly. -/
theorem paste_step_eq (st : PasteSt) (c : List Char) (hc : chunkOK c) :
    rawScanChunk st c = pasteKeypressStep st c := by
  rcases hc with rfl | rfl | ⟨hs, he, hf1, hf2⟩
  · rw [rawScanChunk_start]; rfl
  · rw [rawScanChunk_end]; rfl
  · have hm := findMarker_eq_none c hs he
    have hps := isPrefixOf_eq_false_of_contains PASTE_MODE_START c hs
    have hpe := isPrefixOf_eq_false_of_contains PASTE_MODE_END c he
    rw [rawScanChunk_nomarker st c hm]
    simp [pasteKeypressStep, isPasteModeBoundary, hf1, hf2, hps, hpe]

/-- C7 counterexample: on a stream whose start marker arrives glued to the
following paste content in one chunk, the raw-interception path emits one
paste event with that content while the keypress path emits none (the
prefix-matching boundary check discards the glued content and the empty
completion then emits nothing), so the two paths are not equivalent for every
raw byte stream. -/
theorem c7_paste_paths_counterexample :
    (runRaw { isPaste := false, buf := [] } mixedChunks).2
      = [createPasteKey ['a', 'b', 'c']] ∧
    (runKeypressPaste { isPaste := false, buf := [] } mixedChunks).2 = [] := by
  decide

/-- C7 amended: the two paste paths produce identical states and identical
paste event sequences whenever every chunk delivers paste markers as atomic
chunks of their own and content chunks contain no marker occurrence and are
not focus reports — the regime the spec attributes to the terminal ("paste
markers always arrive as atomic units"). -/
theorem c7_paste_paths_equiv (chunks : List (List Char))
    (hok : ∀ c ∈ chunks, chunkOK c) :
    ∀ st : PasteSt, runRaw st chunks = runKeypressPaste st chunks := by
  induction chunks with
  | nil => intro st; rfl
  | cons c t ih =>
    intro st
    have hc := hok c (List.mem_cons_self c t)
    have iht := ih (fun x hx => hok x (List.mem_cons_of_mem c hx))
    simp only [runRaw, runKeypressPaste, paste_step_eq st c hc, iht]

/-- C7 amended, witness: a well-framed stream (atomic markers around a
content chunk) goes through both paths identically. -/
theorem c7_paste_paths_witness :
    runRaw { isPaste := false, buf := [] }
        [PASTE_MODE_START, ['h', 'i'], PASTE_MODE_END]
      = runKeypressPaste { isPaste := false, buf := [] }
        [PASTE_MODE_START, ['h', 'i'], PASTE_MODE_END] :=
  c7_paste_paths_equiv [PASTE_MODE_START, ['h', 'i'], PASTE_MODE_END]
    (by decide) { isPaste := false, buf := [] }


/-- Subscribing a listener whose identity is not yet present appends it at
the end of the listener set. -/
theorem subscribe_fresh {T σ : Type} (em : EventEmitter T σ) (i : Nat)
    (f : Listener T σ) (h : i ∉ em.listeners.map Prod.fst) :
    (em.subscribe i f).listeners = em.listeners ++ [(i, f)] := by
  have ha : em.listeners.any (fun p => p.1 == i) = false := by
    rw [Bool.eq_false_iff]
    intro hany
    rw [List.any_eq_true] at hany
    obtain ⟨p, hp, hb⟩ := hany
    exact h (List.mem_map.mpr ⟨p, hp, beq_iff_eq.mp hb⟩)
  simp [EventEmitter.subscribe, ha]

/-- Folding fresh logging subscriptions over an emitter appends them in
order. -/
theorem emitterOf_listeners (specs : List (Nat × Bool)) :
    ∀ em : EventEmitter Nat (List (Nat × Nat)),
      (∀ p ∈ specs, p.1 ∉ em.listeners.map Prod.fst) →
      (specs.map Prod.fst).Nodup →
      (specs.foldl (fun e p => e.subscribe p.1 (mkLogger p.1 p.2)) em).listeners
        = em.listeners ++ specs.map (fun p => (p.1, mkLogger p.1 p.2)) := by
  induction specs with
  | nil => intro em _ _; simp
  | cons q t ih =>
    intro em hfresh hnd
    have hqf := hfresh q (List.mem_cons_self q t)
    have hsub := subscribe_fresh em q.1 (mkLogger q.1 q.2) hqf
    rw [List.map_cons, List.nodup_cons] at hnd
    have hfresh2 : ∀ p ∈ t,
        p.1 ∉ (em.subscribe q.1 (mkLogger q.1 q.2)).listeners.map Prod.fst := by
      intro p hp
      rw [hsub]
      simp only [List.map_append, List.mem_append, not_or]
      refine ⟨hfresh p (List.mem_cons_of_mem q hp), ?_⟩
      simp only [List.map_cons, List.map_nil, List.mem_singleton]
      intro he
      exact hnd.1 (he ▸ List.mem_map_of_mem Prod.fst hp)
    simp only [List.foldl_cons]
    rw [ih _ hfresh2 hnd.2, hsub]
    simp

/-- Firing over a set of logging listeners appends one record per listener,
in set order, no matter which listeners throw. -/
theorem fire_loggers (l : List (Nat × Bool)) (d : Nat) :
    ∀ s : List (Nat × Nat),
      List.foldl (fun acc p => (p.2 d acc).1) s
          (l.map (fun p => (p.1, mkLogger p.1 p.2)))
        = s ++ l.map (fun p => (p.1, d)) := by
  induction l with
  | nil => intro s; simp
  | cons q t ih =>
    intro s
    simp only [List.map_cons, List.foldl_cons]
    rw [ih]
    simp [mkLogger]

/-- C10: firing an event through the broadcaster delivers it to every
listener subscribed at fire time, exactly once each, in subscription order:
with one logging listener per spec entry, the world after `fire` records
exactly one `(id, datum)` entry per subscriber in subscription order,
regardless of which listeners throw (the `fire` loop catches and ignores
each listener's exception flag, so a throwing listener neither stops later
deliveries nor escapes the call, mirroring the source's try/catch). -/
theorem c10_fire_delivers (specs : List (Nat × Bool)) (d : Nat)
    (hnd : (specs.map Prod.fst).Nodup) :
    (emitterOf specs).fire d [] = specs.map (fun p => (p.1, d)) := by
  have hl := emitterOf_listeners specs { listeners := [] } (by simp) hnd
  simp only [emitterOf] at hl
  simp only [EventEmitter.fire, emitterOf, hl, List.nil_append]
  exact fire_loggers specs d []

/-- C10, witness: three listeners with the middle one throwing all receive
the datum once, in order. -/
theorem c10_fire_delivers_witness :
    (([(0, false), (1, true), (2, false)].map Prod.fst).Nodup ∧
      (emitterOf [(0, false), (1, true), (2, false)]).fire 7 []
        = [(0, 7), (1, 7), (2, 7)]) := by
  refine ⟨by decide, ?_⟩
  rw [c10_fire_delivers [(0, false), (1, true), (2, false)] 7 (by decide)]
  rfl

end Kilo
